import Mathlib

/-!
# Verification of `youtube_comment_fetcher` (`src/main.py`)

A shallow embedding of the program in Lean 4, together with theorems that
settle the specification claims.

Modelling conventions:
* A parsed API response page is a `Page`: the already-normalised comment
  records (`item["snippet"]["topLevelComment"]["snippet"]` projected to the
  three stored fields) plus the optional `nextPageToken`.
* The network is a finite list of `Except Unit Page`: `Except.error ()`
  stands for a `requests.exceptions.RequestException` (connection failure or
  `raise_for_status` on a non-2xx response).  Running past the end of the
  list is also modelled as a transport failure of the next GET.
* The three output files of one run (`comments_<id>_<date>.md/.csv/.json`)
  are a `FileState`.  A Markdown line is modelled by its variable parts
  (`<idx>. **<author>**: <text> (Published at: <published_at>)`), a CSV line
  is either the header row or a data row, and the JSON file is the list of
  appended `{"comments": [...]}` wrapper objects.
* `save_comments` performs a sequence of atomic write operations inside a
  `try`.  A write failure is injected as `failAfter = some n`: the exception
  is raised after the first `n` operations have taken effect, the handler
  logs and returns `start_index` unchanged.  `failAfter = none` is the
  success path.  The failure schedule of a run is a list consumed one entry
  per `save_comments` call (missing entries mean success).
-/

namespace YCF

/-- One normalised comment record (src/main.py lines 48-52). -/
structure Comment where
  author : String
  text : String
  published_at : String
deriving DecidableEq, Repr

/-- One parsed API response page: the `items` already projected to comment
records, and the optional `nextPageToken`. -/
structure Page where
  items : List Comment
  nextPageToken : Option String
deriving DecidableEq, Repr

/-- One mocked transport interaction: a parsed page, or a
`requests.exceptions.RequestException`. -/
abbrev Response := Except Unit Page

/-- A Markdown output line, by its variable parts:
`<idx>. **<author>**: <text> (Published at: <published_at>)`. -/
structure MdLine where
  idx : Nat
  author : String
  text : String
  published_at : String
deriving DecidableEq, Repr

/-- A CSV output line: the header row, or a data row. -/
inductive CsvLine where
  | header : CsvLine
  | row : Nat → String → String → String → CsvLine
deriving DecidableEq, Repr

/-- The triad of output files of one run (same video id and date, hence
fixed file names). -/
structure FileState where
  md : List MdLine
  csv : List CsvLine
  json : List (List Comment)
deriving DecidableEq, Repr

def emptyFS : FileState := ⟨[], [], []⟩

/-! ## `extract_video_id` (src/main.py lines 118-125)

`re.search(r"(?:v=|\/)([0-9A-Za-z_-]{11}).*", url)`: scan positions left to
right; at each position try `v=` then `/`, followed by exactly 11 characters
of the class `[0-9A-Za-z_-]` (the capture); the trailing `.*` always
matches (possibly the empty string) and contributes nothing to the capture. -/

/-- The regex character class `[0-9A-Za-z_-]`. -/
def isIdChar (c : Char) : Bool :=
  (('0' ≤ c) && (c ≤ '9')) || (('A' ≤ c) && (c ≤ 'Z')) ||
  (('a' ≤ c) && (c ≤ 'z')) || (c == '_') || (c == '-')

/-- Match `[0-9A-Za-z_-]{11}` at the head of `l`, returning the capture. -/
def grab11 (l : List Char) : Option (List Char) :=
  let cap := l.take 11
  if (cap.length == 11) && cap.all isIdChar then some cap else none

/-- Try the whole pattern anchored at the head of the list: `v=` or `/`,
then the 11-character capture.  (If `v=` is present but the capture fails,
the `/` alternative cannot match at the same position either.) -/
def matchAt : List Char → Option (List Char)
  | 'v' :: '=' :: rest => grab11 rest
  | '/' :: rest => grab11 rest
  | _ => none

/-- `re.search`: leftmost position at which the pattern matches. -/
def searchVid : List Char → Option (List Char)
  | [] => none
  | c :: rest =>
    match matchAt (c :: rest) with
    | some cap => some cap
    | none => searchVid rest

/-- `extract_video_id` (src/main.py lines 118-125).  `re.search` returns
the leftmost match; `match.group(1)` is the 11-character capture; no match
gives `None`. -/
def extract_video_id (url : String) : Option String :=
  (searchVid url.data).map fun cs => String.mk cs

/-! ## `get_current_comment_count` (src/main.py lines 106-116)

The method body evaluates `f"comments_{video_id}_{date_str}.md"`, but
neither `video_id` nor `date_str` is bound in the method scope (its only
parameter is `self`), in the module globals (src/main.py assigns
`video_id` and `date_str` only as locals of `run` and `save_comments`), or
in the builtins.  Evaluating the f-string therefore raises `NameError`,
which the `except Exception` arm catches: it logs and returns 0. -/

/-- The names visible inside `get_current_comment_count`: its parameter
plus the module-level bindings of src/main.py. -/
def namesInScope : List String :=
  ["self", "os", "requests", "logging", "load_dotenv", "re", "csv", "json",
   "datetime", "YouTubeCommentsTool", "extract_video_id", "run"]

/-- Python name resolution: a name not in scope raises `NameError`.
(The looked-up value itself is irrelevant here; only success matters.) -/
def lookupName (n : String) : Except String String :=
  if n ∈ namesInScope then Except.ok n
  else Except.error ("NameError: name " ++ n ++ " is not defined")

/-- Evaluation of `f"comments_{video_id}_{date_str}.md"`: interpolations
are resolved left to right. -/
def markdownFileName : Except String String := do
  let v ← lookupName "video_id"
  let d ← lookupName "date_str"
  Except.ok ("comments_" ++ v ++ "_" ++ d ++ ".md")

/-- `get_current_comment_count` (src/main.py lines 106-116).  The argument
is the Markdown file on disk (`none` when it does not exist).  The returned
`Bool` records whether the `except` arm logged an error.  Because
`markdownFileName` raises `NameError`, the body never reaches the
`os.path.exists` check. -/
def get_current_comment_count (mdOnDisk : Option (List MdLine)) : Nat × Bool :=
  match markdownFileName with
  | Except.error _ => (0, true)
  | Except.ok _ =>
    match mdOnDisk with
    | some lines => (lines.length, false)
    | none => (0, false)

/-! ## `save_comments` (src/main.py lines 76-104) -/

/-- One atomic write performed inside the `try` of `save_comments`. -/
inductive WriteOp where
  | mdLine : MdLine → WriteOp
  | csvHeader : WriteOp
  | csvRow : Nat → String → String → String → WriteOp
  | jsonBlob : List Comment → WriteOp
deriving DecidableEq, Repr

/-- Apply one atomic write to the files (all three files are opened in
append mode). -/
def applyOp (fs : FileState) : WriteOp → FileState
  | WriteOp.mdLine l => { fs with md := fs.md ++ [l] }
  | WriteOp.csvHeader => { fs with csv := fs.csv ++ [CsvLine.header] }
  | WriteOp.csvRow i a t p => { fs with csv := fs.csv ++ [CsvLine.row i a t p] }
  | WriteOp.jsonBlob b => { fs with json := fs.json ++ [b] }

/-- The write sequence of one `save_comments` call, in source order:
numbered Markdown lines (`enumerate(comments, start=start_index + 1)`),
the CSV header iff `start_index == 0`, the numbered CSV rows, and the
appended JSON wrapper object. -/
def saveOps (comments : List Comment) (start_index : Nat) : List WriteOp :=
  ((List.enumFrom (start_index + 1) comments).map fun p =>
    WriteOp.mdLine ⟨p.1, p.2.author, p.2.text, p.2.published_at⟩)
  ++ (if start_index = 0 then [WriteOp.csvHeader] else [])
  ++ ((List.enumFrom (start_index + 1) comments).map fun p =>
    WriteOp.csvRow p.1 p.2.author p.2.text p.2.published_at)
  ++ [WriteOp.jsonBlob comments]

/-- Result of one `save_comments` call: the files afterwards, the returned
running total, and whether the `except` arm logged an error. -/
structure SaveOut where
  fs : FileState
  total : Nat
  errorLogged : Bool
deriving DecidableEq, Repr

/-- `save_comments` (src/main.py lines 76-104).  On success every write
takes effect and `start_index + len(comments)` is returned; when the
injected exception fires after `n` writes, the handler logs and returns
`start_index` unchanged. -/
def save_comments (fs : FileState) (comments : List Comment)
    (start_index : Nat) (failAfter : Option Nat) : SaveOut :=
  match failAfter with
  | none =>
    ⟨(saveOps comments start_index).foldl applyOp fs,
      start_index + comments.length, false⟩
  | some n =>
    ⟨((saveOps comments start_index).take n).foldl applyOp fs,
      start_index, true⟩

/-! ## `_run` (src/main.py lines 16-74) -/

/-- State observable when the `while True` loop exits (by `break` or by a
transport exception).  `saveTrace` records `(batch, start_index)` for every
in-loop `save_comments` call, `flushedInLoop` their concatenated batches,
`comments` the in-memory batch at exit, `requests` the number of HTTP GETs
issued (a GET that raises is counted), `sched` the remaining failure
schedule. -/
structure LoopOut where
  fs : FileState
  comments : List Comment
  total : Nat
  sched : List (Option Nat)
  requests : Nat
  saveTrace : List (List Comment × Nat)
  flushedInLoop : List Comment
  httpError : Bool
deriving Repr

/-- The `while True` loop of `_run` (src/main.py lines 30-62), one parsed
response per iteration.  Each iteration: issue the GET (an `Except.error`,
or exhaustion of the mock list, raises `RequestException`); extend the
batch with the page's items; if the batch has reached 100 records, flush it
and reset the batch (the reset happens even if the flush failed); `break`
when the page carries no `nextPageToken`. -/
def runLoop (responses : List Response) (sched : List (Option Nat))
    (fs : FileState) (comments : List Comment) (total : Nat) : LoopOut :=
  match responses with
  | [] => ⟨fs, comments, total, sched, 1, [], [], true⟩
  | Except.error _ :: _ => ⟨fs, comments, total, sched, 1, [], [], true⟩
  | Except.ok page :: rest =>
    let comments1 := comments ++ page.items
    if comments1.length ≥ 100 then
      let s := save_comments fs comments1 total (sched.headD none)
      match page.nextPageToken with
      | none =>
        ⟨s.fs, [], s.total, sched.tail, 1, [(comments1, total)], comments1, false⟩
      | some _ =>
        let r := runLoop rest sched.tail s.fs [] s.total
        ⟨r.fs, r.comments, r.total, r.sched, r.requests + 1,
          (comments1, total) :: r.saveTrace, comments1 ++ r.flushedInLoop,
          r.httpError⟩
    else
      match page.nextPageToken with
      | none => ⟨fs, comments1, total, sched, 1, [], [], false⟩
      | some _ =>
        let r := runLoop rest sched fs comments1 total
        ⟨r.fs, r.comments, r.total, r.sched, r.requests + 1, r.saveTrace,
          r.flushedInLoop, r.httpError⟩

/-- `if not api_key`: Python falsiness of `os.getenv` results. -/
def pyFalsy : Option String → Bool
  | none => true
  | some s => s == ""

/-- Observable outcome of one `_run` call.  `saveTrace` lists
`(batch, start_index)` for every `save_comments` call of the run (the
unconditional final call included), `flushedInLoop` the concatenation of
the in-loop flushed batches, `inFlight` the in-memory batch held when the
run ended. -/
structure RunOut where
  returned : List Comment
  fs : FileState
  requests : Nat
  saveTrace : List (List Comment × Nat)
  flushedInLoop : List Comment
  inFlight : List Comment
  httpError : Bool
  configError : Bool
deriving Repr

/-- `YouTubeCommentsTool._run` (src/main.py lines 16-74).  A missing (or
empty) API key logs the fatal configuration error and returns `[]` before
any request.  Otherwise the initial running total comes from
`get_current_comment_count` (line 28), the loop runs, a
`RequestException` is caught by logging and returning `[]` (lines 69-71),
and on normal exit the remaining batch is saved unconditionally (line 65,
its return value discarded) and the batch is returned (line 67). -/
def runTool (apiKey : Option String) (responses : List Response)
    (sched : List (Option Nat)) (fs0 : FileState) : RunOut :=
  if pyFalsy apiKey then
    ⟨[], fs0, 0, [], [], [], false, true⟩
  else
    let total0 := (get_current_comment_count (some fs0.md)).1
    let l := runLoop responses sched fs0 [] total0
    if l.httpError then
      ⟨[], l.fs, l.requests, l.saveTrace, l.flushedInLoop, l.comments,
        true, false⟩
    else
      let s := save_comments l.fs l.comments l.total (l.sched.headD none)
      ⟨l.comments, s.fs, l.requests, l.saveTrace ++ [(l.comments, l.total)],
        l.flushedInLoop, l.comments, false, false⟩

/-! ## Characterisation of the writer -/

/-- The Markdown lines appended by one successful flush. -/
def mdLinesOf (comments : List Comment) (start_index : Nat) : List MdLine :=
  (List.enumFrom (start_index + 1) comments).map fun p =>
    ⟨p.1, p.2.author, p.2.text, p.2.published_at⟩

/-- The CSV header appended by one successful flush (iff `start_index = 0`). -/
def headerIf (start_index : Nat) : List CsvLine :=
  if start_index = 0 then [CsvLine.header] else []

/-- The CSV data rows appended by one successful flush. -/
def csvRowsOf (comments : List Comment) (start_index : Nat) : List CsvLine :=
  (List.enumFrom (start_index + 1) comments).map fun p =>
    CsvLine.row p.1 p.2.author p.2.text p.2.published_at

theorem foldl_md_seg (l : List (Nat × Comment)) (fs : FileState) :
    ((l.map fun p =>
        WriteOp.mdLine ⟨p.1, p.2.author, p.2.text, p.2.published_at⟩).foldl applyOp fs)
      = { fs with md := fs.md ++ l.map fun p =>
          (⟨p.1, p.2.author, p.2.text, p.2.published_at⟩ : MdLine) } := by
  induction l generalizing fs with
  | nil => simp
  | cons x xs ih =>
    simp only [List.map_cons, List.foldl_cons, applyOp]
    rw [ih]
    simp [List.append_assoc]

theorem foldl_csv_seg (l : List (Nat × Comment)) (fs : FileState) :
    ((l.map fun p =>
        WriteOp.csvRow p.1 p.2.author p.2.text p.2.published_at).foldl applyOp fs)
      = { fs with csv := fs.csv ++ l.map fun p =>
          CsvLine.row p.1 p.2.author p.2.text p.2.published_at } := by
  induction l generalizing fs with
  | nil => simp
  | cons x xs ih =>
    simp only [List.map_cons, List.foldl_cons, applyOp]
    rw [ih]
    simp [List.append_assoc]

/-- The success path of `save_comments`, as one structural equation. -/
theorem save_comments_none_eq (fs : FileState) (c : List Comment) (s : Nat) :
    save_comments fs c s none =
      ⟨⟨fs.md ++ mdLinesOf c s, fs.csv ++ (headerIf s ++ csvRowsOf c s),
        fs.json ++ [c]⟩, s + c.length, false⟩ := by
  have hhd : ∀ fs' : FileState,
      ((if s = 0 then [WriteOp.csvHeader] else []).foldl applyOp fs')
        = { fs' with csv := fs'.csv ++ headerIf s } := by
    intro fs'
    by_cases hs : s = 0 <;> simp [headerIf, hs, applyOp]
  simp only [save_comments, saveOps, List.foldl_append]
  rw [foldl_md_seg, hhd, foldl_csv_seg]
  simp only [List.foldl_cons, List.foldl_nil, applyOp]
  simp [mdLinesOf, csvRowsOf, List.append_assoc]

/-- Whether a CSV line is the header row. -/
def isHeader : CsvLine → Bool
  | CsvLine.header => true
  | _ => false

/-- Number of header rows in a CSV file. -/
def headerCount (l : List CsvLine) : Nat := (l.filter isHeader).length

/-- The index of a CSV data row (none for the header). -/
def csvRowIdx : CsvLine → Option Nat
  | CsvLine.header => none
  | CsvLine.row i _ _ _ => some i

theorem headerCount_append (a b : List CsvLine) :
    headerCount (a ++ b) = headerCount a + headerCount b := by
  simp [headerCount, List.filter_append]

theorem headerCount_headerIf (s : Nat) :
    headerCount (headerIf s) = if s = 0 then 1 else 0 := by
  by_cases h : s = 0 <;> simp [headerIf, headerCount, h, isHeader]

theorem headerCount_csvRowsOf (c : List Comment) (s : Nat) :
    headerCount (csvRowsOf c s) = 0 := by
  have h : ∀ l : List (Nat × Comment),
      headerCount (l.map fun p => CsvLine.row p.1 p.2.author p.2.text p.2.published_at) = 0 := by
    intro l
    induction l with
    | nil => simp [headerCount]
    | cons x xs ih => simpa [headerCount, isHeader] using ih
  exact h _

/-! ## Unfolding equations for the fetch loop -/

theorem runLoop_ok_some_flush (page : Page) (rest : List Response)
    (sched : List (Option Nat)) (fs : FileState) (comments : List Comment)
    (total : Nat) (t : String) (ht : page.nextPageToken = some t)
    (h : (comments ++ page.items).length ≥ 100) :
    runLoop (Except.ok page :: rest) sched fs comments total =
      ⟨(runLoop rest sched.tail
          (save_comments fs (comments ++ page.items) total (sched.headD none)).fs []
          (save_comments fs (comments ++ page.items) total (sched.headD none)).total).fs,
        (runLoop rest sched.tail
          (save_comments fs (comments ++ page.items) total (sched.headD none)).fs []
          (save_comments fs (comments ++ page.items) total (sched.headD none)).total).comments,
        (runLoop rest sched.tail
          (save_comments fs (comments ++ page.items) total (sched.headD none)).fs []
          (save_comments fs (comments ++ page.items) total (sched.headD none)).total).total,
        (runLoop rest sched.tail
          (save_comments fs (comments ++ page.items) total (sched.headD none)).fs []
          (save_comments fs (comments ++ page.items) total (sched.headD none)).total).sched,
        (runLoop rest sched.tail
          (save_comments fs (comments ++ page.items) total (sched.headD none)).fs []
          (save_comments fs (comments ++ page.items) total (sched.headD none)).total).requests + 1,
        (comments ++ page.items, total) ::
          (runLoop rest sched.tail
            (save_comments fs (comments ++ page.items) total (sched.headD none)).fs []
            (save_comments fs (comments ++ page.items) total (sched.headD none)).total).saveTrace,
        (comments ++ page.items) ++
          (runLoop rest sched.tail
            (save_comments fs (comments ++ page.items) total (sched.headD none)).fs []
            (save_comments fs (comments ++ page.items) total (sched.headD none)).total).flushedInLoop,
        (runLoop rest sched.tail
          (save_comments fs (comments ++ page.items) total (sched.headD none)).fs []
          (save_comments fs (comments ++ page.items) total (sched.headD none)).total).httpError⟩ := by
  simp only [runLoop]
  rw [if_pos h, ht]

theorem runLoop_ok_some_noflush (page : Page) (rest : List Response)
    (sched : List (Option Nat)) (fs : FileState) (comments : List Comment)
    (total : Nat) (t : String) (ht : page.nextPageToken = some t)
    (h : ¬ (comments ++ page.items).length ≥ 100) :
    runLoop (Except.ok page :: rest) sched fs comments total =
      ⟨(runLoop rest sched fs (comments ++ page.items) total).fs,
        (runLoop rest sched fs (comments ++ page.items) total).comments,
        (runLoop rest sched fs (comments ++ page.items) total).total,
        (runLoop rest sched fs (comments ++ page.items) total).sched,
        (runLoop rest sched fs (comments ++ page.items) total).requests + 1,
        (runLoop rest sched fs (comments ++ page.items) total).saveTrace,
        (runLoop rest sched fs (comments ++ page.items) total).flushedInLoop,
        (runLoop rest sched fs (comments ++ page.items) total).httpError⟩ := by
  simp only [runLoop]
  rw [if_neg h, ht]

theorem runLoop_ok_none_flush (page : Page) (rest : List Response)
    (sched : List (Option Nat)) (fs : FileState) (comments : List Comment)
    (total : Nat) (ht : page.nextPageToken = none)
    (h : (comments ++ page.items).length ≥ 100) :
    runLoop (Except.ok page :: rest) sched fs comments total =
      ⟨(save_comments fs (comments ++ page.items) total (sched.headD none)).fs, [],
        (save_comments fs (comments ++ page.items) total (sched.headD none)).total,
        sched.tail, 1, [(comments ++ page.items, total)],
        comments ++ page.items, false⟩ := by
  simp only [runLoop]
  rw [if_pos h, ht]

theorem runLoop_ok_none_noflush (page : Page) (rest : List Response)
    (sched : List (Option Nat)) (fs : FileState) (comments : List Comment)
    (total : Nat) (ht : page.nextPageToken = none)
    (h : ¬ (comments ++ page.items).length ≥ 100) :
    runLoop (Except.ok page :: rest) sched fs comments total =
      ⟨fs, comments ++ page.items, total, sched, 1, [], [], false⟩ := by
  simp only [runLoop]
  rw [if_neg h, ht]

/-- Data flow of a run whose pages all parse, all but the last carrying a
continuation token: the loop issues one request per page, exits without
transport error, and every fetched record is either in an in-loop flushed
batch or in the exit batch, in arrival order. -/
theorem runLoop_flow (front : List Page) (last : Page) :
    ∀ (sched : List (Option Nat)) (fs : FileState) (comments : List Comment)
      (total : Nat),
      (∀ p ∈ front, p.nextPageToken ≠ none) → last.nextPageToken = none →
      ∀ l, l = runLoop ((front ++ [last]).map Except.ok) sched fs comments total →
        l.httpError = false ∧ l.requests = front.length + 1 ∧
        l.flushedInLoop = (l.saveTrace.map Prod.fst).flatten ∧
        comments ++ (front ++ [last]).flatMap Page.items
          = l.flushedInLoop ++ l.comments := by
  induction front with
  | nil =>
    intro sched fs comments total _ hlast l hl
    simp only [List.nil_append, List.map_cons, List.map_nil] at hl
    by_cases h : (comments ++ last.items).length ≥ 100
    · rw [runLoop_ok_none_flush last [] sched fs comments total hlast h] at hl
      subst hl
      refine ⟨rfl, rfl, by simp, by simp⟩
    · rw [runLoop_ok_none_noflush last [] sched fs comments total hlast h] at hl
      subst hl
      refine ⟨rfl, rfl, by simp, by simp⟩
  | cons p front' ih =>
    intro sched fs comments total hfront hlast l hl
    have hp : p.nextPageToken ≠ none := hfront p (List.mem_cons_self p front')
    cases ho : p.nextPageToken with
    | none => exact absurd ho hp
    | some t =>
      have hfront' : ∀ q ∈ front', q.nextPageToken ≠ none := fun q hq =>
        hfront q (List.mem_cons_of_mem _ hq)
      simp only [List.cons_append, List.map_cons] at hl
      by_cases h : (comments ++ p.items).length ≥ 100
      · rw [runLoop_ok_some_flush p _ sched fs comments total t ho h] at hl
        obtain ⟨h1, h2, h3, h4⟩ := ih sched.tail
          (save_comments fs (comments ++ p.items) total (sched.headD none)).fs []
          (save_comments fs (comments ++ p.items) total (sched.headD none)).total
          hfront' hlast _ rfl
        simp only [List.nil_append] at h4
        subst hl
        dsimp only [List.length_cons]
        refine ⟨h1, by rw [h2], ?_, ?_⟩
        · rw [List.map_cons, List.flatten_cons, h3]
        · rw [List.cons_append, List.flatMap_cons, h4]
          simp only [List.append_assoc]
      · rw [runLoop_ok_some_noflush p _ sched fs comments total t ho h] at hl
        obtain ⟨h1, h2, h3, h4⟩ := ih sched fs (comments ++ p.items) total
          hfront' hlast _ rfl
        subst hl
        dsimp only [List.length_cons]
        refine ⟨h1, by rw [h2], h3, ?_⟩
        rw [List.cons_append, List.flatMap_cons, ← List.append_assoc, h4]

/-- Number of flush records in a save trace whose start index is zero. -/
def zcount (tr : List (List Comment × Nat)) : Nat :=
  (tr.filter fun e => e.2 == 0).length

theorem zcount_cons (e : List Comment × Nat) (tr : List (List Comment × Nat)) :
    zcount (e :: tr) = (if e.2 = 0 then 1 else 0) + zcount tr := by
  by_cases h : e.2 = 0
  · simp [zcount, h]
    omega
  · simp [zcount, h]

theorem zcount_eq_zero (tr : List (List Comment × Nat))
    (h : ∀ e ∈ tr, 0 < e.2) : zcount tr = 0 := by
  induction tr with
  | nil => rfl
  | cons a as ih =>
    have ha := h a (List.mem_cons_self a as)
    rw [zcount_cons, if_neg (by omega), ih fun e he => h e (List.mem_cons_of_mem _ he)]

theorem trace_all_ge (tr : List (List Comment × Nat)) (b : Nat)
    (h6 : ∀ e ∈ tr.head?.toList, e.2 = b) (h7 : ∀ e ∈ tr.tail, b + 100 ≤ e.2) :
    ∀ e ∈ tr, b ≤ e.2 := by
  cases tr with
  | nil => intro e he; simp at he
  | cons a as =>
    intro e he
    rcases List.mem_cons.mp he with he1 | he2
    · have := h6 a (by simp)
      subst he1
      omega
    · have := h7 e (by simpa using he2)
      omega

/-- Bookkeeping of a failure-free run (empty failure schedule): the JSON
file gains exactly the flushed batches, the CSV gains one header per flush
with start index zero, the running total never decreases, the first in-loop
flush starts at the entering total and all later ones at least 100 past it. -/
theorem runLoop_books (front : List Page) (last : Page) :
    ∀ (fs : FileState) (comments : List Comment) (total : Nat),
      (∀ p ∈ front, p.nextPageToken ≠ none) → last.nextPageToken = none →
      ∀ l, l = runLoop ((front ++ [last]).map Except.ok) [] fs comments total →
        l.sched = [] ∧
        l.fs.json = fs.json ++ l.saveTrace.map Prod.fst ∧
        headerCount l.fs.csv = headerCount fs.csv + zcount l.saveTrace ∧
        total ≤ l.total ∧
        (l.saveTrace = [] → l.total = total) ∧
        (∀ e ∈ l.saveTrace.head?.toList, e.2 = total) ∧
        (∀ e ∈ l.saveTrace.tail, total + 100 ≤ e.2) ∧
        (l.saveTrace ≠ [] → total + 100 ≤ l.total) := by
  induction front with
  | nil =>
    intro fs comments total _ hlast l hl
    simp only [List.nil_append, List.map_cons, List.map_nil] at hl
    by_cases h : (comments ++ last.items).length ≥ 100
    · rw [runLoop_ok_none_flush last [] [] fs comments total hlast h] at hl
      rw [show (([] : List (Option Nat)).headD none) = none from rfl,
        save_comments_none_eq] at hl
      subst hl
      refine ⟨rfl, by simp, ?_, by simp, by simp, ?_, by simp, ?_⟩
      · dsimp only
        rw [headerCount_append, headerCount_append, headerCount_headerIf,
          headerCount_csvRowsOf, zcount_cons]
        by_cases htot : total = 0
        · simp [htot, zcount]
        · simp [htot, zcount]
      · intro e he
        simp at he
        simp [he]
      · intro _
        dsimp only
        omega
    · rw [runLoop_ok_none_noflush last [] [] fs comments total hlast h] at hl
      subst hl
      refine ⟨rfl, by simp [zcount], by simp [zcount], by simp, by simp, ?_, ?_, ?_⟩
      · intro e he; simp at he
      · intro e he; simp at he
      · intro hne; simp at hne
  | cons p front' ih =>
    intro fs comments total hfront hlast l hl
    have hp : p.nextPageToken ≠ none := hfront p (List.mem_cons_self p front')
    cases ho : p.nextPageToken with
    | none => exact absurd ho hp
    | some t =>
      have hfront' : ∀ q ∈ front', q.nextPageToken ≠ none := fun q hq =>
        hfront q (List.mem_cons_of_mem _ hq)
      simp only [List.cons_append, List.map_cons] at hl
      by_cases h : (comments ++ p.items).length ≥ 100
      · rw [runLoop_ok_some_flush p _ [] fs comments total t ho h] at hl
        rw [show (([] : List (Option Nat)).headD none) = none from rfl,
          show (List.tail ([] : List (Option Nat))) = [] from rfl,
          save_comments_none_eq] at hl
        obtain ⟨g1, g2, g3, g4, g5, g6, g7, g8⟩ := ih
          ⟨fs.md ++ mdLinesOf (comments ++ p.items) total,
            fs.csv ++ (headerIf total ++ csvRowsOf (comments ++ p.items) total),
            fs.json ++ [comments ++ p.items]⟩ []
          (total + (comments ++ p.items).length) hfront' hlast _ rfl
        have hall := trace_all_ge _ _ g6 g7
        subst hl
        dsimp only
        have hlen : 100 ≤ (comments ++ p.items).length := h
        refine ⟨g1, ?_, ?_, by omega, ?_, ?_, ?_, ?_⟩
        · rw [g2]
          dsimp only
          simp [List.append_assoc]
        · rw [g3]
          dsimp only
          rw [headerCount_append, headerCount_append, headerCount_headerIf,
            headerCount_csvRowsOf, zcount_cons]
          by_cases htot : total = 0
          · simp [htot]
            try omega
          · simp [htot]
            try omega
        · intro habs
          exact absurd habs (List.cons_ne_nil _ _)
        · intro e he
          simp at he
          simp [he]
        · intro e he
          dsimp only [List.tail_cons] at he
          have := hall e he
          omega
        · intro _
          omega
      · rw [runLoop_ok_some_noflush p _ [] fs comments total t ho h] at hl
        obtain ⟨g1, g2, g3, g4, g5, g6, g7, g8⟩ := ih fs (comments ++ p.items) total
          hfront' hlast _ rfl
        subst hl
        exact ⟨g1, g2, g3, g4, g5, g6, g7, g8⟩

/-- Batch-size bounds: when every page carries at most 100 items and the
batch entering the loop holds at most 99 records, every batch passed to an
in-loop flush holds at most 199 records and the batch at loop exit at most
99. -/
theorem runLoop_sizes (front : List Page) (last : Page) :
    ∀ (sched : List (Option Nat)) (fs : FileState) (comments : List Comment)
      (total : Nat),
      (∀ p ∈ front, p.nextPageToken ≠ none) → last.nextPageToken = none →
      comments.length ≤ 99 →
      (∀ p ∈ front, p.items.length ≤ 100) → last.items.length ≤ 100 →
      ∀ l, l = runLoop ((front ++ [last]).map Except.ok) sched fs comments total →
        (∀ e ∈ l.saveTrace, e.1.length ≤ 199) ∧ l.comments.length ≤ 99 := by
  induction front with
  | nil =>
    intro sched fs comments total _ hlast hc _ hlastlen l hl
    simp only [List.nil_append, List.map_cons, List.map_nil] at hl
    by_cases h : (comments ++ last.items).length ≥ 100
    · rw [runLoop_ok_none_flush last [] sched fs comments total hlast h] at hl
      subst hl
      refine ⟨?_, by simp⟩
      intro e he
      simp at he
      subst he
      simp
      omega
    · rw [runLoop_ok_none_noflush last [] sched fs comments total hlast h] at hl
      subst hl
      refine ⟨by intro e he; simp at he, ?_⟩
      dsimp only
      omega
  | cons p front' ih =>
    intro sched fs comments total hfront hlast hc hsz hlastlen l hl
    have hp : p.nextPageToken ≠ none := hfront p (List.mem_cons_self p front')
    have hpsz : p.items.length ≤ 100 := hsz p (List.mem_cons_self p front')
    cases ho : p.nextPageToken with
    | none => exact absurd ho hp
    | some t =>
      have hfront' : ∀ q ∈ front', q.nextPageToken ≠ none := fun q hq =>
        hfront q (List.mem_cons_of_mem _ hq)
      have hsz' : ∀ q ∈ front', q.items.length ≤ 100 := fun q hq =>
        hsz q (List.mem_cons_of_mem _ hq)
      simp only [List.cons_append, List.map_cons] at hl
      by_cases h : (comments ++ p.items).length ≥ 100
      · rw [runLoop_ok_some_flush p _ sched fs comments total t ho h] at hl
        obtain ⟨g1, g2⟩ := ih sched.tail
          (save_comments fs (comments ++ p.items) total (sched.headD none)).fs []
          (save_comments fs (comments ++ p.items) total (sched.headD none)).total
          hfront' hlast (by simp) hsz' hlastlen _ rfl
        subst hl
        refine ⟨?_, g2⟩
        intro e he
        dsimp only at he
        rcases List.mem_cons.mp he with he1 | he2
        · subst he1
          simp
          omega
        · exact g1 e he2
      · rw [runLoop_ok_some_noflush p _ sched fs comments total t ho h] at hl
        obtain ⟨g1, g2⟩ := ih sched fs (comments ++ p.items) total
          hfront' hlast (by omega) hsz' hlastlen _ rfl
        subst hl
        exact ⟨g1, g2⟩

/-- A run over pages of exactly 100 items each (all carrying continuation
tokens) followed by a final page of at most 99 items performs exactly one
in-loop flush per full page when the batch enters empty. -/
theorem runLoop_full_pages (front : List Page) (last : Page) :
    ∀ (fs : FileState) (total : Nat),
      (∀ p ∈ front, p.nextPageToken ≠ none) → last.nextPageToken = none →
      (∀ p ∈ front, p.items.length = 100) → last.items.length ≤ 99 →
      ∀ l, l = runLoop ((front ++ [last]).map Except.ok) [] fs [] total →
        l.saveTrace.length = front.length ∧ l.comments = last.items := by
  induction front with
  | nil =>
    intro fs total _ hlast _ hlastlen l hl
    simp only [List.nil_append, List.map_cons, List.map_nil] at hl
    have h : ¬ (([] : List Comment) ++ last.items).length ≥ 100 := by
      simp
      omega
    rw [runLoop_ok_none_noflush last [] [] fs [] total hlast h] at hl
    subst hl
    exact ⟨rfl, by simp⟩
  | cons p front' ih =>
    intro fs total hfront hlast hsz hlastlen l hl
    have hp : p.nextPageToken ≠ none := hfront p (List.mem_cons_self p front')
    have hpsz : p.items.length = 100 := hsz p (List.mem_cons_self p front')
    cases ho : p.nextPageToken with
    | none => exact absurd ho hp
    | some t =>
      simp only [List.cons_append, List.map_cons] at hl
      have h : (([] : List Comment) ++ p.items).length ≥ 100 := by
        simp [hpsz]
      rw [runLoop_ok_some_flush p _ [] fs [] total t ho h] at hl
      rw [show (([] : List (Option Nat)).headD none) = none from rfl,
        show (List.tail ([] : List (Option Nat))) = [] from rfl] at hl
      obtain ⟨g1, g2⟩ := ih
        (save_comments fs ([] ++ p.items) total none).fs
        (save_comments fs ([] ++ p.items) total none).total
        (fun q hq => hfront q (List.mem_cons_of_mem _ hq)) hlast
        (fun q hq => hsz q (List.mem_cons_of_mem _ hq)) hlastlen _ rfl
      subst hl
      dsimp only [List.length_cons]
      refine ⟨?_, g2⟩
      dsimp only
      rw [g1]

theorem runLoop_error_cons (rest : List Response) (sched : List (Option Nat))
    (fs : FileState) (comments : List Comment) (total : Nat) :
    runLoop (Except.error () :: rest) sched fs comments total =
      ⟨fs, comments, total, sched, 1, [], [], true⟩ := rfl

/-- A run that hits a transport failure after `front` good pages (each
carrying a continuation token): the loop stops at the failing GET, what was
fetched so far is split between the in-loop flushed batches and the
in-flight batch, and with an empty failure schedule the JSON file holds
exactly the flushed batches. -/
theorem runLoop_err (front : List Page) :
    ∀ (rest : List Response) (sched : List (Option Nat)) (fs : FileState)
      (comments : List Comment) (total : Nat),
      (∀ p ∈ front, p.nextPageToken ≠ none) →
      ∀ l, l = runLoop (front.map Except.ok ++ Except.error () :: rest)
          sched fs comments total →
        l.httpError = true ∧ l.requests = front.length + 1 ∧
        l.flushedInLoop = (l.saveTrace.map Prod.fst).flatten ∧
        comments ++ front.flatMap Page.items = l.flushedInLoop ++ l.comments ∧
        (sched = [] → l.fs.json = fs.json ++ l.saveTrace.map Prod.fst) ∧
        (comments.length ≤ 99 → (∀ p ∈ front, p.items.length ≤ 100) →
          (∀ e ∈ l.saveTrace, e.1.length ≤ 199) ∧ l.comments.length ≤ 99) := by
  induction front with
  | nil =>
    intro rest sched fs comments total _ l hl
    simp only [List.map_nil, List.nil_append] at hl
    rw [runLoop_error_cons rest sched fs comments total] at hl
    subst hl
    refine ⟨rfl, rfl, by simp, by simp, by simp, ?_⟩
    intro hc _
    exact ⟨by intro e he; simp at he, hc⟩
  | cons p front' ih =>
    intro rest sched fs comments total hfront l hl
    have hp : p.nextPageToken ≠ none := hfront p (List.mem_cons_self p front')
    cases ho : p.nextPageToken with
    | none => exact absurd ho hp
    | some t =>
      have hfront' : ∀ q ∈ front', q.nextPageToken ≠ none := fun q hq =>
        hfront q (List.mem_cons_of_mem _ hq)
      simp only [List.map_cons, List.cons_append] at hl
      by_cases h : (comments ++ p.items).length ≥ 100
      · rw [runLoop_ok_some_flush p _ sched fs comments total t ho h] at hl
        obtain ⟨g1, g2, g3, g4, g5, g6⟩ := ih rest sched.tail
          (save_comments fs (comments ++ p.items) total (sched.headD none)).fs []
          (save_comments fs (comments ++ p.items) total (sched.headD none)).total
          hfront' _ rfl
        simp only [List.nil_append] at g4
        subst hl
        dsimp only [List.length_cons]
        refine ⟨g1, by rw [g2], ?_, ?_, ?_, ?_⟩
        · rw [List.map_cons, List.flatten_cons, g3]
        · rw [List.flatMap_cons, g4]
          simp only [List.append_assoc]
        · intro hsched
          subst hsched
          rw [show (List.tail ([] : List (Option Nat))) = [] from rfl,
            show (([] : List (Option Nat)).headD none) = none from rfl] at g5 ⊢
          rw [g5 rfl, save_comments_none_eq]
          simp [List.append_assoc]
        · intro _ hsz
          have hpsz : p.items.length ≤ 100 := hsz p (List.mem_cons_self p front')
          obtain ⟨k1, k2⟩ := g6 (by simp)
            (fun q hq => hsz q (List.mem_cons_of_mem _ hq))
          refine ⟨?_, k2⟩
          intro e he
          rcases List.mem_cons.mp he with he1 | he2
          · subst he1
            simp
            omega
          · exact k1 e he2
      · rw [runLoop_ok_some_noflush p _ sched fs comments total t ho h] at hl
        obtain ⟨g1, g2, g3, g4, g5, g6⟩ := ih rest sched fs (comments ++ p.items)
          total hfront' _ rfl
        subst hl
        dsimp only [List.length_cons]
        refine ⟨g1, by rw [g2], g3, ?_, g5, ?_⟩
        · rw [List.flatMap_cons, ← List.append_assoc, g4]
        · intro hc hsz
          have hpsz : p.items.length ≤ 100 := hsz p (List.mem_cons_self p front')
          exact g6 (by omega) (fun q hq => hsz q (List.mem_cons_of_mem _ hq))

theorem grab11_some (l cap : List Char) (h : grab11 l = some cap) :
    cap = l.take 11 ∧ cap.length = 11 ∧ cap.all isIdChar = true := by
  simp only [grab11] at h
  split at h
  · rename_i hcond
    cases h
    simp only [Bool.and_eq_true, beq_iff_eq] at hcond
    exact ⟨rfl, hcond.1, hcond.2⟩
  · cases h

theorem matchAt_shape (l cap : List Char) (h : matchAt l = some cap) :
    cap.length = 11 ∧ cap.all isIdChar = true ∧
    ((l.take 2 = ['v', '='] ∧ (l.drop 2).take 11 = cap) ∨
     (l.take 1 = ['/'] ∧ (l.drop 1).take 11 = cap)) := by
  unfold matchAt at h
  split at h
  · rename_i rest
    obtain ⟨hcap, hlen, hall⟩ := grab11_some rest cap h
    exact ⟨hlen, hall, Or.inl ⟨rfl, hcap.symm⟩⟩
  · rename_i rest
    obtain ⟨hcap, hlen, hall⟩ := grab11_some rest cap h
    exact ⟨hlen, hall, Or.inr ⟨rfl, hcap.symm⟩⟩
  · cases h

theorem searchVid_leftmost (cs : List Char) :
    ∀ j : Nat, (matchAt (cs.drop j)).isSome = true →
      ∃ i cap, searchVid cs = some cap ∧ matchAt (cs.drop i) = some cap ∧
        ∀ k, k < i → matchAt (cs.drop k) = none := by
  induction cs with
  | nil =>
    intro j hj
    rw [List.drop_nil] at hj
    simp [matchAt] at hj
  | cons c rest ih =>
    intro j hj
    cases h0 : matchAt (c :: rest) with
    | some cap =>
      refine ⟨0, cap, ?_, ?_, ?_⟩
      · simp [searchVid, h0]
      · simpa using h0
      · intro k hk
        omega
    | none =>
      cases j with
      | zero =>
        rw [List.drop_zero, h0] at hj
        simp at hj
      | succ j' =>
        rw [List.drop_succ_cons] at hj
        obtain ⟨i, cap, hs, hm, hmin⟩ := ih j' hj
        refine ⟨i + 1, cap, ?_, ?_, ?_⟩
        · rw [show searchVid (c :: rest) = searchVid rest from by simp [searchVid, h0]]
          exact hs
        · rw [List.drop_succ_cons]
          exact hm
        · intro k hk
          cases k with
          | zero => simpa using h0
          | succ k' =>
            rw [List.drop_succ_cons]
            exact hmin k' (by omega)

/-- Positions `i` in `cs` at which `seg` is a well-formed 11-character
identifier segment standing immediately after `v=` or after a `/`: the
claim's hypothesis, written from the spec sentence. -/
def wellFormedSegAt (cs : List Char) (i : Nat) (seg : List Char) : Bool :=
  (seg.length == 11) && seg.all isIdChar &&
  ((cs.drop i).take 11 == seg) &&
  (((2 ≤ i : Bool) && ((cs.drop (i - 2)).take 2 == ['v', '='])) ||
   ((1 ≤ i : Bool) && ((cs.drop (i - 1)).take 1 == ['/']))) &&
  (match (cs.drop (i + 11)).head? with
   | none => true
   | some c => !(isIdChar c))

/-- C2: the resume heuristic cannot work as documented.  Whatever the
Markdown file on disk holds, `get_current_comment_count` returns 0 and logs
the exception, because the method body references the undefined names
`video_id` and `date_str` and the resulting `NameError` is swallowed by the
`except` arm; in particular a 5-line existing Markdown file still yields
resume offset 0 instead of 5. -/
theorem C2_resume_count_name_error :
    (∀ mdOnDisk : Option (List MdLine),
      get_current_comment_count mdOnDisk = (0, true)) ∧
    get_current_comment_count
      (some (List.replicate 5 ⟨1, "a", "b", "c"⟩)) = (0, true) :=
  ⟨fun _ => rfl, rfl⟩

/-- C4: with the API key environment variable unset, `_run` logs the fatal
configuration error and returns the empty list, making no HTTP request,
no `save_comments` call and no file write, whatever the network and the
files would have held. -/
theorem C4_missing_api_key (responses : List Response)
    (sched : List (Option Nat)) (fs0 : FileState) :
    runTool none responses sched fs0 = ⟨[], fs0, 0, [], [], [], false, true⟩ :=
  rfl

/-- C5 counterexample: `/abcdefghijkl?v=dQw4w9WgXcQ` contains the
well-formed 11-character segment `dQw4w9WgXcQ` immediately after `v=`
(position 16), yet `extract_video_id` returns `abcdefghijk` — the first 11
identifier characters after the leftmost `/`, cut out of the 12-character
run `abcdefghijkl` — not that segment. -/
theorem C5_counterexample :
    wellFormedSegAt (String.data "/abcdefghijkl?v=dQw4w9WgXcQ") 16
        (String.data "dQw4w9WgXcQ") = true ∧
    extract_video_id "/abcdefghijkl?v=dQw4w9WgXcQ" = some "abcdefghijk" ∧
    some "abcdefghijk" ≠ some "dQw4w9WgXcQ" :=
  ⟨by decide, by decide, by decide⟩

/-- C5 (amended): `extract_video_id` implements leftmost-match search: if
any position of the URL has `v=` or `/` followed by at least 11 identifier
characters, the function returns the capture of the leftmost such position
— 11 identifier characters standing immediately after `v=` or after `/` —
and no earlier position matches; on the example URL this capture is the
well-formed segment `dQw4w9WgXcQ`. -/
theorem C5_extract_video_id_leftmost :
    (∀ (cs : List Char) (j : Nat), (matchAt (cs.drop j)).isSome = true →
      ∃ i cap, searchVid cs = some cap ∧ matchAt (cs.drop i) = some cap ∧
        ∀ k, k < i → matchAt (cs.drop k) = none) ∧
    (∀ (l cap : List Char), matchAt l = some cap →
      cap.length = 11 ∧ cap.all isIdChar = true ∧
      ((l.take 2 = ['v', '='] ∧ (l.drop 2).take 11 = cap) ∨
       (l.take 1 = ['/'] ∧ (l.drop 1).take 11 = cap))) ∧
    extract_video_id "https://www.youtube.com/watch?v=dQw4w9WgXcQ&t=5s"
      = some "dQw4w9WgXcQ" :=
  ⟨searchVid_leftmost, matchAt_shape, by decide⟩

/-- C5 witness: a concrete URL on which the leftmost-match theorem fires. -/
theorem C5_extract_video_id_leftmost_witness :
    ∃ i cap, searchVid (String.data "v=aaaaaaaaaaa") = some cap ∧
      matchAt ((String.data "v=aaaaaaaaaaa").drop i) = some cap ∧
      ∀ k, k < i → matchAt ((String.data "v=aaaaaaaaaaa").drop k) = none :=
  C5_extract_video_id_leftmost.1 (String.data "v=aaaaaaaaaaa") 0 (by decide)

theorem get_count_zero (md : Option (List MdLine)) :
    get_current_comment_count md = (0, true) := rfl

theorem runTool_eq_ok (key : String) (hkey : key ≠ "") (responses : List Response)
    (sched : List (Option Nat)) (fs0 : FileState)
    (hne : (runLoop responses sched fs0 [] 0).httpError = false) :
    runTool (some key) responses sched fs0 =
      ⟨(runLoop responses sched fs0 [] 0).comments,
        (save_comments (runLoop responses sched fs0 [] 0).fs
          (runLoop responses sched fs0 [] 0).comments
          (runLoop responses sched fs0 [] 0).total
          ((runLoop responses sched fs0 [] 0).sched.headD none)).fs,
        (runLoop responses sched fs0 [] 0).requests,
        (runLoop responses sched fs0 [] 0).saveTrace
          ++ [((runLoop responses sched fs0 [] 0).comments,
               (runLoop responses sched fs0 [] 0).total)],
        (runLoop responses sched fs0 [] 0).flushedInLoop,
        (runLoop responses sched fs0 [] 0).comments,
        false, false⟩ := by
  simp [runTool, pyFalsy, hkey, get_count_zero, hne]

theorem runTool_eq_err (key : String) (hkey : key ≠ "") (responses : List Response)
    (sched : List (Option Nat)) (fs0 : FileState)
    (he : (runLoop responses sched fs0 [] 0).httpError = true) :
    runTool (some key) responses sched fs0 =
      ⟨[], (runLoop responses sched fs0 [] 0).fs,
        (runLoop responses sched fs0 [] 0).requests,
        (runLoop responses sched fs0 [] 0).saveTrace,
        (runLoop responses sched fs0 [] 0).flushedInLoop,
        (runLoop responses sched fs0 [] 0).comments,
        true, false⟩ := by
  simp [runTool, pyFalsy, hkey, get_count_zero, he]

/-- C1 counterexample: one page of exactly 100 items and no continuation
token.  The in-loop flush fires, then the unconditional final
`save_comments` call at line 65 runs on the empty batch: 2 flush calls,
while ceil(100/100) = 1. -/
theorem C1_counterexample :
    (runTool (some "k")
        [Except.ok ⟨List.replicate 100 (⟨"a", "b", "c"⟩ : Comment), none⟩]
        [] emptyFS).saveTrace.length = 2 ∧
    (100 + 99) / 100 = 1 :=
  ⟨by decide, by decide⟩

/-- C1 (amended): for pages each of at most 100 items whose final page
carries no continuation token, the fetch loop terminates — one GET per
page, no transport error — and the number of `save_comments` calls is the
number of in-loop flushes plus one (the unconditional final call).  When
every non-final page carries exactly 100 items and the final page between
1 and 99, that number equals ceil(total items / 100). -/
theorem C1_flush_count (key : String) (front : List Page) (last : Page)
    (fs0 : FileState) :
    key ≠ "" → (∀ p ∈ front, p.nextPageToken ≠ none) →
    last.nextPageToken = none →
    (∀ sched,
      (runTool (some key) ((front ++ [last]).map Except.ok) sched fs0).httpError
        = false ∧
      (runTool (some key) ((front ++ [last]).map Except.ok) sched fs0).requests
        = front.length + 1) ∧
    ((∀ p ∈ front, p.items.length = 100) →
      1 ≤ last.items.length → last.items.length ≤ 99 →
      (runTool (some key) ((front ++ [last]).map Except.ok) [] fs0).saveTrace.length
        = (100 * front.length + last.items.length + 99) / 100) := by
  intro hkey hfront hlast
  constructor
  · intro sched
    obtain ⟨h1, h2, _, _⟩ := runLoop_flow front last sched fs0 [] 0 hfront hlast _ rfl
    rw [runTool_eq_ok key hkey _ sched fs0 h1]
    exact ⟨rfl, h2⟩
  · intro hfull h1r h99
    obtain ⟨hf1, _, _, _⟩ := runLoop_flow front last [] fs0 [] 0 hfront hlast _ rfl
    rw [runTool_eq_ok key hkey _ [] fs0 hf1]
    obtain ⟨ht, _⟩ := runLoop_full_pages front last fs0 0 hfront hlast hfull
      (by omega) _ rfl
    dsimp only
    simp only [List.length_append, List.length_cons, List.length_nil, ht]
    have harith : 100 * front.length + last.items.length + 99
        = 100 * (front.length + 1) + (last.items.length - 1) := by omega
    rw [harith, Nat.mul_add_div (by omega)]
    have hz : (last.items.length - 1) / 100 = 0 := Nat.div_eq_of_lt (by omega)
    omega

/-- A mock page of exactly 100 items carrying a continuation token. -/
def c1pageFull : Page := ⟨List.replicate 100 (⟨"a", "b", "c"⟩ : Comment), some "t"⟩

/-- A mock final page of one item and no continuation token. -/
def c1pageLast : Page := ⟨[⟨"a", "b", "c"⟩], none⟩

/-- C1 witness: one full page plus a one-item final page, giving
2 = ceil(101/100) save calls. -/
theorem C1_flush_count_witness :
    (runTool (some "k") (([c1pageFull] ++ [c1pageLast]).map Except.ok)
        [] emptyFS).saveTrace.length
      = (100 * [c1pageFull].length + c1pageLast.items.length + 99) / 100 :=
  (C1_flush_count "k" [c1pageFull] c1pageLast emptyFS (by decide)
      (by intro p hp; rw [List.mem_singleton] at hp; subst hp; simp [c1pageFull])
      rfl).2
    (by intro p hp; rw [List.mem_singleton] at hp; subst hp; simp [c1pageFull])
    (by simp [c1pageLast]) (by simp [c1pageLast])

set_option maxRecDepth 8000 in
/-- C3 counterexample: two pages of 99 items each.  No flush fires after
the first page (99 < 100), so the batch passed to the first `save_comments`
call holds 198 records — more than 100. -/
theorem C3_counterexample :
    ((runTool (some "k")
        [Except.ok ⟨List.replicate 99 (⟨"a", "b", "c"⟩ : Comment), some "t"⟩,
         Except.ok ⟨List.replicate 99 (⟨"d", "e", "f"⟩ : Comment), none⟩]
        [] emptyFS).saveTrace.map fun e => e.1.length) = [198, 0] ∧
    ¬ (198 ≤ 100) :=
  ⟨by decide, by decide⟩

/-- C3 (amended): with every page holding at most 100 items, each batch
passed to `save_comments` holds at most 199 records (the at most 99
unflushed records left from earlier pages plus one new page); this holds
both for runs that complete and for runs cut short by a transport
failure. -/
theorem C3_batch_bound (key : String) (fs0 : FileState)
    (sched : List (Option Nat)) :
    (∀ (front : List Page) (last : Page),
      key ≠ "" → (∀ p ∈ front, p.nextPageToken ≠ none) →
      last.nextPageToken = none →
      (∀ p ∈ front, p.items.length ≤ 100) → last.items.length ≤ 100 →
      ∀ e ∈ (runTool (some key) ((front ++ [last]).map Except.ok)
          sched fs0).saveTrace, e.1.length ≤ 199) ∧
    (∀ (front : List Page) (rest : List Response),
      key ≠ "" → (∀ p ∈ front, p.nextPageToken ≠ none) →
      (∀ p ∈ front, p.items.length ≤ 100) →
      ∀ e ∈ (runTool (some key)
          (front.map Except.ok ++ Except.error () :: rest) sched fs0).saveTrace,
        e.1.length ≤ 199) := by
  constructor
  · intro front last hkey hfront hlast hsz hlastsz e he
    obtain ⟨h1, _, _, _⟩ := runLoop_flow front last sched fs0 [] 0 hfront hlast _ rfl
    obtain ⟨k1, k2⟩ := runLoop_sizes front last sched fs0 [] 0 hfront hlast
      (by simp) hsz hlastsz _ rfl
    rw [runTool_eq_ok key hkey _ sched fs0 h1] at he
    dsimp only at he
    rcases List.mem_append.mp he with he1 | he2
    · exact k1 e he1
    · rw [List.mem_singleton] at he2
      subst he2
      dsimp only
      omega
  · intro front rest hkey hfront hsz e he
    obtain ⟨g1, _, _, _, _, g6⟩ := runLoop_err front rest sched fs0 [] 0 hfront _ rfl
    obtain ⟨k1, _⟩ := g6 (by simp) hsz
    rw [runTool_eq_err key hkey _ sched fs0 g1] at he
    dsimp only at he
    exact k1 e he

/-- C3 witness: a one-item single-page run whose only save call holds one
record. -/
theorem C3_batch_bound_witness :
    (([(⟨"a", "b", "c"⟩ : Comment)], 0) : List Comment × Nat).1.length ≤ 199 :=
  (C3_batch_bound "k" emptyFS []).1 [] ⟨[⟨"a", "b", "c"⟩], none⟩ (by decide)
    (by intro p hp; simp at hp) rfl (by intro p hp; simp at hp) (by simp)
    ([⟨"a", "b", "c"⟩], 0) (by decide)

/-- C9: an injected write failure during a flush makes `save_comments`
log and return the start index unchanged, and the run continues: with any
failure schedule, a well-formed page sequence is still fetched to the end
(one request per page, no abort). -/
theorem C9_write_failure (fs : FileState) (c : List Comment) (s n : Nat) :
    (n < (saveOps c s).length →
      (save_comments fs c s (some n)).total = s ∧
      (save_comments fs c s (some n)).errorLogged = true) ∧
    (∀ (key : String) (front : List Page) (last : Page)
      (sched : List (Option Nat)) (fs0 : FileState),
      key ≠ "" → (∀ p ∈ front, p.nextPageToken ≠ none) →
      last.nextPageToken = none →
      (runTool (some key) ((front ++ [last]).map Except.ok) sched fs0).httpError
        = false ∧
      (runTool (some key) ((front ++ [last]).map Except.ok) sched fs0).requests
        = front.length + 1) := by
  constructor
  · intro _
    exact ⟨rfl, rfl⟩
  · intro key front last sched fs0 hkey hfront hlast
    obtain ⟨h1, h2, _, _⟩ := runLoop_flow front last sched fs0 [] 0 hfront hlast _ rfl
    rw [runTool_eq_ok key hkey _ sched fs0 h1]
    exact ⟨rfl, h2⟩

/-- C9 witness: failing the very first write of a three-record flush. -/
theorem C9_write_failure_witness :
    (save_comments emptyFS [⟨"a", "b", "c"⟩] 0 (some 0)).total = 0 ∧
    (save_comments emptyFS [⟨"a", "b", "c"⟩] 0 (some 0)).errorLogged = true :=
  (C9_write_failure emptyFS [⟨"a", "b", "c"⟩] 0 0).1 (by decide)

theorem zcount_append (a b : List (List Comment × Nat)) :
    zcount (a ++ b) = zcount a + zcount b := by
  simp [zcount, List.filter_append]

theorem saveOps_header_mem (b : List Comment) (s : Nat) :
    WriteOp.csvHeader ∈ saveOps b s ↔ s = 0 := by
  by_cases hs : s = 0
  · simp [saveOps, hs]
  · simp [saveOps, hs]

theorem mdLinesOf_idx (c : List Comment) (s : Nat) :
    (mdLinesOf c s).map MdLine.idx = List.range' (s + 1) c.length := by
  rw [mdLinesOf, List.map_map]
  have : (MdLine.idx ∘ fun p : Nat × Comment =>
      (⟨p.1, p.2.author, p.2.text, p.2.published_at⟩ : MdLine)) = Prod.fst := by
    funext p
    rfl
  rw [this, List.enumFrom_map_fst]

/-- C6: a transport failure aborts the run without raising: the error is
logged, the returned list is empty, no further request is made, the
batches flushed before the failure are exactly what the JSON file gained,
and the in-flight batch is lost — it is neither in the files nor in the
returned list (`flushedInLoop ++ inFlight` covers everything fetched). -/
theorem C6_transport_error_aborts (key : String) (front : List Page)
    (rest : List Response) (fs0 : FileState) :
    key ≠ "" → (∀ p ∈ front, p.nextPageToken ≠ none) →
    (runTool (some key) (front.map Except.ok ++ Except.error () :: rest)
        [] fs0).httpError = true ∧
    (runTool (some key) (front.map Except.ok ++ Except.error () :: rest)
        [] fs0).returned = [] ∧
    (runTool (some key) (front.map Except.ok ++ Except.error () :: rest)
        [] fs0).requests = front.length + 1 ∧
    (runTool (some key) (front.map Except.ok ++ Except.error () :: rest)
        [] fs0).fs.json = fs0.json ++
      ((runTool (some key) (front.map Except.ok ++ Except.error () :: rest)
        [] fs0).saveTrace.map Prod.fst) ∧
    (runTool (some key) (front.map Except.ok ++ Except.error () :: rest)
        [] fs0).flushedInLoop ++
      (runTool (some key) (front.map Except.ok ++ Except.error () :: rest)
        [] fs0).inFlight = front.flatMap Page.items := by
  intro hkey hfront
  obtain ⟨g1, g2, g3, g4, g5, _⟩ := runLoop_err front rest [] fs0 [] 0 hfront _ rfl
  rw [runTool_eq_err key hkey _ [] fs0 g1]
  dsimp only
  refine ⟨rfl, rfl, g2, g5 rfl, ?_⟩
  simpa using g4.symm

/-- C6 witness: one good page then a failing GET. -/
theorem C6_transport_error_aborts_witness :
    (runTool (some "k")
        (([⟨[⟨"a", "b", "c"⟩], some "t"⟩] : List Page).map Except.ok
          ++ Except.error () :: []) [] emptyFS).httpError = true ∧
    (runTool (some "k")
        (([⟨[⟨"a", "b", "c"⟩], some "t"⟩] : List Page).map Except.ok
          ++ Except.error () :: []) [] emptyFS).returned = [] := by
  have h := C6_transport_error_aborts "k" [⟨[⟨"a", "b", "c"⟩], some "t"⟩] [] emptyFS
    (by decide) (by intro p hp; rw [List.mem_singleton] at hp; subst hp; simp)
  exact ⟨h.1, h.2.1⟩

/-- C7: in a failure-free run the CSV header row is appended exactly once,
and a flush writes the header if and only if the start index passed to it
is zero (`zcount` counts the flush calls whose start index is zero: there
is exactly one, and `WriteOp.csvHeader` appears in a flush's write sequence
iff its start index is zero). -/
theorem C7_csv_header_once (key : String) (front : List Page) (last : Page)
    (fs0 : FileState) :
    key ≠ "" → (∀ p ∈ front, p.nextPageToken ≠ none) →
    last.nextPageToken = none →
    headerCount (runTool (some key) ((front ++ [last]).map Except.ok)
        [] fs0).fs.csv = headerCount fs0.csv + 1 ∧
    zcount (runTool (some key) ((front ++ [last]).map Except.ok)
        [] fs0).saveTrace = 1 ∧
    (∀ (b : List Comment) (s : Nat), WriteOp.csvHeader ∈ saveOps b s ↔ s = 0) := by
  intro hkey hfront hlast
  obtain ⟨h1, _, _, _⟩ := runLoop_flow front last [] fs0 [] 0 hfront hlast _ rfl
  obtain ⟨g1, g2, g3, g4, g5, g6, g7, g8⟩ :=
    runLoop_books front last fs0 [] 0 hfront hlast _ rfl
  rw [runTool_eq_ok key hkey _ [] fs0 h1]
  dsimp only
  rw [g1, show (([] : List (Option Nat)).headD none) = none from rfl,
    save_comments_none_eq]
  dsimp only
  refine ⟨?_, ?_, saveOps_header_mem⟩
  · rw [headerCount_append, headerCount_append, headerCount_headerIf,
      headerCount_csvRowsOf, g3]
    rcases htr : (runLoop ((front ++ [last]).map Except.ok) [] fs0 [] 0).saveTrace
      with _ | ⟨e, es⟩
    · have h0 := g5 htr
      rw [if_pos h0, show zcount ([] : List (List Comment × Nat)) = 0 from rfl]
    · have he : e.2 = 0 := g6 e (by rw [htr]; simp)
      have hes : ∀ x ∈ es, 0 < x.2 := by
        intro x hx
        have := g7 x (by rw [htr]; simpa using hx)
        omega
      have h8 := g8 (by rw [htr]; simp)
      rw [zcount_cons, if_pos he, zcount_eq_zero es hes, if_neg (by omega)]
  · rw [zcount_append]
    rcases htr : (runLoop ((front ++ [last]).map Except.ok) [] fs0 [] 0).saveTrace
      with _ | ⟨e, es⟩
    · have h0 := g5 htr
      rw [zcount_cons]
      dsimp only
      rw [if_pos h0, show zcount ([] : List (List Comment × Nat)) = 0 from rfl]
    · have he : e.2 = 0 := g6 e (by rw [htr]; simp)
      have hes : ∀ x ∈ es, 0 < x.2 := by
        intro x hx
        have := g7 x (by rw [htr]; simpa using hx)
        omega
      have h8 := g8 (by rw [htr]; simp)
      rw [zcount_cons, if_pos he, zcount_eq_zero es hes, zcount_cons]
      dsimp only
      rw [if_neg (by omega), show zcount ([] : List (List Comment × Nat)) = 0 from rfl]

/-- C7 witness: a single-page run from empty files gains exactly one
header. -/
theorem C7_csv_header_once_witness :
    headerCount (runTool (some "k")
        ((([] : List Page) ++ ([⟨[⟨"a", "b", "c"⟩], none⟩] : List Page)).map Except.ok)
        [] emptyFS).fs.csv = headerCount emptyFS.csv + 1 :=
  (C7_csv_header_once "k" [] (⟨[⟨"a", "b", "c"⟩], none⟩ : Page) emptyFS (by decide)
    (by intro p hp; simp at hp) rfl).1

set_option maxRecDepth 8000 in
/-- C8: a successful flush returns start index plus batch size and numbers
its Markdown lines from start index + 1; chaining flushes of 100 and 37
records from running total 0 gives totals 100 then 137 and contiguous
record numbers 1..137 in both the Markdown and the CSV file. -/
theorem C8_running_total_numbering (fs : FileState) (c : List Comment)
    (s : Nat) :
    ((save_comments fs c s none).total = s + c.length ∧
     (save_comments fs c s none).fs.md.map MdLine.idx
       = fs.md.map MdLine.idx ++ List.range' (s + 1) c.length) ∧
    ((save_comments emptyFS (List.replicate 100 (⟨"a", "b", "c"⟩ : Comment)) 0 none).total
        = 100 ∧
     (save_comments
        (save_comments emptyFS (List.replicate 100 (⟨"a", "b", "c"⟩ : Comment)) 0 none).fs
        (List.replicate 37 (⟨"d", "e", "f"⟩ : Comment))
        (save_comments emptyFS (List.replicate 100 (⟨"a", "b", "c"⟩ : Comment)) 0 none).total
        none).total = 137 ∧
     ((save_comments
        (save_comments emptyFS (List.replicate 100 (⟨"a", "b", "c"⟩ : Comment)) 0 none).fs
        (List.replicate 37 (⟨"d", "e", "f"⟩ : Comment))
        (save_comments emptyFS (List.replicate 100 (⟨"a", "b", "c"⟩ : Comment)) 0 none).total
        none).fs.md.map MdLine.idx = List.range' 1 137 ∧
      (save_comments
        (save_comments emptyFS (List.replicate 100 (⟨"a", "b", "c"⟩ : Comment)) 0 none).fs
        (List.replicate 37 (⟨"d", "e", "f"⟩ : Comment))
        (save_comments emptyFS (List.replicate 100 (⟨"a", "b", "c"⟩ : Comment)) 0 none).total
        none).fs.csv.filterMap csvRowIdx = List.range' 1 137)) := by
  constructor
  · rw [save_comments_none_eq]
    refine ⟨rfl, ?_⟩
    dsimp only
    rw [List.map_append, mdLinesOf_idx]
  · exact ⟨by decide, by decide, by decide, by decide⟩

/-- C10 (implicit): a run that completes without transport error returns
exactly the records accumulated since the last in-loop flush: the in-loop
flushed records followed by the returned list reconstitute everything
fetched; the in-loop flushed records are those of all save calls but the
final one; when all fetched records are distinct, no record flushed
in-loop appears in the returned list; and the returned final batch holds
at most 99 records (so it is empty or a strict partial batch). -/
theorem C10_returns_final_batch (key : String) (front : List Page)
    (last : Page) (fs0 : FileState) :
    key ≠ "" → (∀ p ∈ front, p.nextPageToken ≠ none) →
    last.nextPageToken = none →
    (∀ p ∈ front, p.items.length ≤ 100) → last.items.length ≤ 100 →
    (runTool (some key) ((front ++ [last]).map Except.ok) [] fs0).flushedInLoop
        ++ (runTool (some key) ((front ++ [last]).map Except.ok) [] fs0).returned
      = (front ++ [last]).flatMap Page.items ∧
    (runTool (some key) ((front ++ [last]).map Except.ok) [] fs0).flushedInLoop
      = ((runTool (some key) ((front ++ [last]).map Except.ok)
          [] fs0).saveTrace.dropLast.map Prod.fst).flatten ∧
    (((front ++ [last]).flatMap Page.items).Nodup →
      ∀ x ∈ (runTool (some key) ((front ++ [last]).map Except.ok)
          [] fs0).flushedInLoop,
        x ∉ (runTool (some key) ((front ++ [last]).map Except.ok)
          [] fs0).returned) ∧
    (runTool (some key) ((front ++ [last]).map Except.ok)
        [] fs0).returned.length ≤ 99 := by
  intro hkey hfront hlast hsz hlastsz
  obtain ⟨h1, _, h3, h4⟩ := runLoop_flow front last [] fs0 [] 0 hfront hlast _ rfl
  obtain ⟨_, k2⟩ := runLoop_sizes front last [] fs0 [] 0 hfront hlast
    (by simp) hsz hlastsz _ rfl
  simp only [List.nil_append] at h4
  rw [runTool_eq_ok key hkey _ [] fs0 h1]
  dsimp only
  refine ⟨h4.symm, ?_, ?_, k2⟩
  · rw [show ((runLoop ((front ++ [last]).map Except.ok) [] fs0 [] 0).saveTrace
        ++ [((runLoop ((front ++ [last]).map Except.ok) [] fs0 [] 0).comments,
             (runLoop ((front ++ [last]).map Except.ok) [] fs0 [] 0).total)]).dropLast
        = (runLoop ((front ++ [last]).map Except.ok) [] fs0 [] 0).saveTrace
      from by simp]
    exact h3
  · intro hnodup x hx hx2
    rw [h4] at hnodup
    exact List.disjoint_of_nodup_append hnodup hx hx2

/-- C10 witness: two one-item pages; the returned list is the final batch
and nothing was flushed in-loop. -/
theorem C10_returns_final_batch_witness :
    (runTool (some "k")
        ((([⟨[⟨"a", "b", "c"⟩], some "t"⟩] : List Page)
          ++ ([⟨[⟨"d", "e", "f"⟩], none⟩] : List Page)).map Except.ok) [] emptyFS).flushedInLoop
      ++ (runTool (some "k")
        ((([⟨[⟨"a", "b", "c"⟩], some "t"⟩] : List Page)
          ++ ([⟨[⟨"d", "e", "f"⟩], none⟩] : List Page)).map Except.ok) [] emptyFS).returned
    = (([⟨[⟨"a", "b", "c"⟩], some "t"⟩] : List Page)
        ++ ([⟨[⟨"d", "e", "f"⟩], none⟩] : List Page)).flatMap Page.items :=
  (C10_returns_final_batch "k" ([⟨[⟨"a", "b", "c"⟩], some "t"⟩] : List Page)
    (⟨[⟨"d", "e", "f"⟩], none⟩ : Page) emptyFS (by decide)
    (by intro p hp; rw [List.mem_singleton] at hp; subst hp; simp) rfl
    (by intro p hp; rw [List.mem_singleton] at hp; subst hp; simp)
    (by simp)).1

end YCF
